import Mathlib

/-!
Verification development for the sound-upload script of the
tibetan-listening repository (src/upload_sounds.py).

The script has three parts:
  zip_folder     - walks a local directory and writes a zip archive
  upload_to_ftp  - uploads the archive over FTP inside a with-block
  main           - zip, upload, print a notice, delete the local archive

We model the local filesystem as a list of (path, bytes) files plus a list
of existing directories, where a path is a list of components.  The zip
container and the per-entry DEFLATE compression are modelled by executable,
provably lossless encoders and decoders.  The FTP session is modelled as a
big-step function producing the new server state, an event trace and an
Except result; the event trace records which protocol steps happened, in
order, so that claims about sequencing and resource release are statements
about the trace.
-/

namespace UploadSounds

/-- A local path, as its list of components (no separators inside). -/
abbrev Path := List String

/-- File contents as a list of byte values. -/
abbrev Bytes := List Nat

/-- The local filesystem: the set of existing directories and the regular
files with their contents.  os.walk sees exactly the files whose path
descends from the walked root; a directory that does not exist has no
files below it and os.walk silently yields nothing for it. -/
structure FS where
  dirs : List Path
  files : List (Path × Bytes)
deriving Repr, DecidableEq

/-- Read a regular file; none when absent. -/
def FS.read (fs : FS) (p : Path) : Option Bytes :=
  (fs.files.find? (fun q => q.1 == p)).map (fun q => q.2)

/-- Create or overwrite (truncate) the regular file at p. -/
def FS.setFile (fs : FS) (p : Path) (b : Bytes) : FS :=
  { fs with files := (p, b) :: fs.files.filter (fun q => !(q.1 == p)) }

/-- Delete the regular file at p, as os.remove does. -/
def FS.removeFile (fs : FS) (p : Path) : FS :=
  { fs with files := fs.files.filter (fun q => !(q.1 == p)) }

/-- descends folder p is true when p is strictly below folder, i.e. folder
is a proper ancestor of p.  os.walk(folder) enumerates exactly the regular
files whose path satisfies this. -/
def descends : Path → Path → Bool
  | [], [] => false
  | [], _ :: _ => true
  | _ :: _, [] => false
  | a :: as, b :: bs => a == b && descends as bs

/-- The regular files that os.walk(folder) yields, with their contents
(the file list of the walked tree, in filesystem order). -/
def walkFiles (fs : FS) (folder : Path) : List (Path × Bytes) :=
  fs.files.filter (fun q => descends folder q.1)

/-- os.path.relpath(p, folder) for p below folder: the components of p
after the folder components. -/
def relpath (folder p : Path) : Path := p.drop folder.length

/-- The archive entry name: the relative components joined with forward
slashes, as zipfile normalises arcnames regardless of os.sep. -/
def arcname (folder p : Path) : String := String.intercalate "/" (relpath folder p)

/-- Merge one byte into a run-length encoding (helper of rleEnc). -/
def rleCons (x : Nat) : List (Nat × Nat) → List (Nat × Nat)
  | [] => [(1, x)]
  | (n, y) :: rest => if x = y then (n + 1, y) :: rest else (1, x) :: (n, y) :: rest

/-- Run-length encoder: the executable stand-in for the lossless DEFLATE
compressor applied to each entry (zipfile.ZIP_DEFLATED). -/
def rleEnc : Bytes → List (Nat × Nat)
  | [] => []
  | x :: xs => rleCons x (rleEnc xs)

/-- Run-length decoder. -/
def rleDec : List (Nat × Nat) → Bytes
  | [] => []
  | (n, y) :: rest => List.replicate n y ++ rleDec rest

/-- Serialise the run list as a flat byte list. -/
def flattenPairs (ps : List (Nat × Nat)) : Bytes :=
  (ps.map (fun q => [q.1, q.2])).flatten

/-- Parse a flat byte list back into a run list. -/
def readPairs : Bytes → Option (List (Nat × Nat))
  | [] => some []
  | n :: v :: rest =>
    match readPairs rest with
    | some ps => some ((n, v) :: ps)
    | none => none
  | [_] => none

/-- Compress one entry's bytes (model of per-entry DEFLATE). -/
def deflate (bs : Bytes) : Bytes := flattenPairs (rleEnc bs)

/-- Decompress one entry's bytes. -/
def inflate (bs : Bytes) : Option Bytes := (readPairs bs).map rleDec

/-- Self-delimiting number encoding used by the container model. -/
def encNat (n : Nat) : Bytes := List.replicate n 1 ++ [0]

/-- Decoder for encNat, returning the value and the remaining bytes. -/
def decNat : Bytes → Option (Nat × Bytes)
  | [] => none
  | 0 :: rest => some (0, rest)
  | (_ + 1) :: rest =>
    match decNat rest with
    | some (n, r) => some (n + 1, r)
    | none => none

/-- Length-prefixed byte-string encoding. -/
def encBytes (bs : Bytes) : Bytes := encNat bs.length ++ bs

/-- Decoder for encBytes. -/
def decBytes (l : Bytes) : Option (Bytes × Bytes) :=
  match decNat l with
  | some (n, r) => if n ≤ r.length then some (r.take n, r.drop n) else none
  | none => none

/-- Entry-name encoding: the codepoints of the string, length-prefixed. -/
def encStr (s : String) : Bytes := encBytes (s.data.map Char.toNat)

/-- Decoder for encStr. -/
def decStr (l : Bytes) : Option (String × Bytes) :=
  match decBytes l with
  | some (cs, r) => some (String.mk (cs.map Char.ofNat), r)
  | none => none

/-- A zip entry: the arcname and the compressed bytes of the file. -/
abbrev Entry := String × Bytes

/-- Serialise one entry. -/
def encEntry (e : Entry) : Bytes := encStr e.1 ++ encBytes e.2

/-- Decode one entry. -/
def decEntry (l : Bytes) : Option (Entry × Bytes) :=
  match decStr l with
  | some (name, r) =>
    match decBytes r with
    | some (payload, r2) => some ((name, payload), r2)
    | none => none
  | none => none

/-- The bytes of the zip container file: entry count, then the entries. -/
def encodeZip (es : List Entry) : Bytes := encNat es.length ++ (es.map encEntry).flatten

/-- Decode a given number of consecutive entries. -/
def decEntries : Nat → Bytes → Option (List Entry × Bytes)
  | 0, l => some ([], l)
  | n + 1, l =>
    match decEntry l with
    | some (e, r) =>
      match decEntries n r with
      | some (es, r2) => some (e :: es, r2)
      | none => none
    | none => none

/-- Open a zip container: what any conforming archive tool reads back.
Returns the entry list, or none when the bytes are not a valid archive. -/
def decodeZip (bs : Bytes) : Option (List Entry) :=
  match decNat bs with
  | some (n, r) =>
    match decEntries n r with
    | some (es, []) => some es
    | some (_, _ :: _) => none
    | none => none
  | none => none

/-- The entries zipf.write produces for the walked files: arcname is the
relative path, the payload is the compressed file bytes. -/
def zipEntries (fs : FS) (folder : Path) : List Entry :=
  (walkFiles fs folder).map (fun q => (arcname folder q.1, deflate q.2))

/-- Model of zip_folder(folder_path, zip_path) from src/upload_sounds.py
lines 14-20.  ZipFile(zip_path, 'w') first creates or truncates the output
file; only then does the os.walk loop run, so the walk sees the filesystem
with the (still empty) output file already present.  os.walk raises
nothing for a missing or empty folder (it just yields no files), so the
function is total in this model: it always writes an archive. -/
def zip_folder (fs : FS) (folder zipp : Path) : FS :=
  let fs1 := fs.setFile zipp []
  fs1.setFile zipp (encodeZip (zipEntries fs1 folder))

/-- Configuration constants of the script (src/upload_sounds.py lines 6-11). -/
def FTP_HOST : String := "ftp.example.com"

def FTP_USER : String := "your_username"

def FTP_PASS : String := "your_password"

def REMOTE_DIR : String := "/path/to/remote/dir"

def LOCAL_DIR : Path := ["dist", "sounds"]

def ZIP_FILE : String := "sounds.zip"

/-- The local path at which the archive is written ('sounds.zip' in the
working directory). -/
def ZIP_PATH : Path := [ZIP_FILE]

/-- The remote FTP server: reachability of the host, whether it accepts
the script's fixed credentials, its directories, whether a binary store
on it completes (false models a dropped data connection or a server
rejecting the STOR mid-transfer), and its files keyed by
(directory, name). -/
structure Server where
  reachable : Bool
  credOk : Bool
  dirs : List String
  storOk : Bool
  files : List ((String × String) × Bytes)
deriving Repr, DecidableEq

/-- STOR: create or overwrite one remote file in the given directory. -/
def Server.store (srv : Server) (dir name : String) (bs : Bytes) : Server :=
  { srv with files := ((dir, name), bs) :: srv.files.filter (fun q => !(q.1 == (dir, name))) }

/-- Observable events of one upload_to_ftp call, in order. -/
inductive Ev
  | connectAttempted
  | connected
  | loggedIn
  | cwdChanged
  | localOpened
  | stored
  | closed
deriving Repr, DecidableEq

/-- The error taxonomy of the pipeline. -/
inductive Err
  | connectionError
  | authError
  | remoteFSError
  | ioError
deriving Repr, DecidableEq

/-- Model of upload_to_ftp(zip_path) from src/upload_sounds.py lines 23-28,
as a big-step function returning the new server state, the event trace and
the result.  FTP(FTP_HOST) connects inside the constructor, so a failed
connect happens before the with-block is entered and nothing is closed;
once connected, the with-block guarantees a close on every exit path.  The
steps run strictly in order: login, cwd(REMOTE_DIR), open(zip_path, 'rb'),
storbinary; the first failing step raises and skips the rest (but not the
close).  storbinary itself can fail - the data connection drops or the
server rejects the STOR - which the storOk field models: the local file
was opened, no stored event is recorded, the error propagates, and the
with-block still closes the control connection. -/
def upload_to_ftp (fs : FS) (srv : Server) (zipp : Path) : Server × List Ev × Except Err Unit :=
  if srv.reachable = false then
    (srv, [.connectAttempted], .error .connectionError)
  else if srv.credOk = false then
    (srv, [.connectAttempted, .connected, .closed], .error .authError)
  else if srv.dirs.contains REMOTE_DIR = false then
    (srv, [.connectAttempted, .connected, .loggedIn, .closed], .error .remoteFSError)
  else
    match fs.read zipp with
    | none =>
      (srv, [.connectAttempted, .connected, .loggedIn, .cwdChanged, .closed], .error .ioError)
    | some bs =>
      if srv.storOk = false then
        (srv,
         [.connectAttempted, .connected, .loggedIn, .cwdChanged, .localOpened, .closed],
         .error .connectionError)
      else
        (srv.store REMOTE_DIR ZIP_FILE bs,
         [.connectAttempted, .connected, .loggedIn, .cwdChanged, .localOpened, .stored, .closed],
         .ok ())

/-- The state after the orchestrator run: local filesystem, server, the
trace of the upload step, and the process outcome. -/
structure RunResult where
  fs : FS
  srv : Server
  trace : List Ev
  exit : Except Err Unit
deriving Repr

/-- Model of the __main__ block, src/upload_sounds.py lines 34-49: zip the
folder, upload the archive, print the unzip notice, then os.remove the
local archive.  There is no try/except, so the first raised error ends the
run at that point and the remaining statements never execute; in
particular os.remove runs only when the upload returned normally. -/
def mainRun (fs : FS) (srv : Server) : RunResult :=
  let fs1 := zip_folder fs LOCAL_DIR ZIP_PATH
  match upload_to_ftp fs1 srv ZIP_PATH with
  | (srv2, tr, Except.error e) => ⟨fs1, srv2, tr, Except.error e⟩
  | (srv2, tr, Except.ok _) => ⟨fs1.removeFile ZIP_PATH, srv2, tr, Except.ok ()⟩

/-! Lossless-codec lemmas: the run-length model of DEFLATE and the zip
container serialisation both decode back to what was encoded. -/

theorem rleDec_rleCons (x : Nat) (ps : List (Nat × Nat)) :
    rleDec (rleCons x ps) = x :: rleDec ps := by
  cases ps with
  | nil => simp [rleCons, rleDec]
  | cons p rest =>
    obtain ⟨n, y⟩ := p
    by_cases h : x = y
    · subst h
      simp [rleCons, rleDec, List.replicate_succ]
    · simp [rleCons, rleDec, h]

theorem rleDec_rleEnc (bs : Bytes) : rleDec (rleEnc bs) = bs := by
  induction bs with
  | nil => rfl
  | cons x xs ih => simp [rleEnc, rleDec_rleCons, ih]

theorem readPairs_flattenPairs (ps : List (Nat × Nat)) :
    readPairs (flattenPairs ps) = some ps := by
  induction ps with
  | nil => rfl
  | cons p rest ih =>
    obtain ⟨n, v⟩ := p
    simp only [flattenPairs, List.map_cons, List.flatten_cons, List.cons_append,
      List.nil_append] at ih ⊢
    simp [readPairs, ih]

/-- The per-entry compression model is lossless. -/
theorem inflate_deflate (bs : Bytes) : inflate (deflate bs) = some bs := by
  simp [inflate, deflate, readPairs_flattenPairs, rleDec_rleEnc]

theorem decNat_encNat (n : Nat) (rest : Bytes) :
    decNat (encNat n ++ rest) = some (n, rest) := by
  induction n with
  | zero => rfl
  | succ k ih =>
    simp only [encNat, List.replicate_succ, List.cons_append, List.append_assoc,
      List.nil_append] at ih ⊢
    simp [decNat, ih]

theorem decBytes_encBytes (bs rest : Bytes) :
    decBytes (encBytes bs ++ rest) = some (bs, rest) := by
  simp only [encBytes, List.append_assoc]
  simp [decBytes, decNat_encNat, List.take_left, List.drop_left]

theorem decStr_encStr (s : String) (rest : Bytes) :
    decStr (encStr s ++ rest) = some (s, rest) := by
  obtain ⟨d⟩ := s
  have hcomp : List.map (Char.ofNat ∘ Char.toNat) d = d := by
    induction d with
    | nil => rfl
    | cons c cs ihc => simp [Char.ofNat_toNat, ihc]
  simp only [encStr, List.append_assoc]
  simp [decStr, decBytes_encBytes, List.map_map, hcomp]

theorem decEntry_encEntry (e : Entry) (rest : Bytes) :
    decEntry (encEntry e ++ rest) = some (e, rest) := by
  obtain ⟨name, payload⟩ := e
  simp only [encEntry, List.append_assoc]
  simp [decEntry, decStr_encStr, decBytes_encBytes]

theorem decEntries_append (es : List Entry) (rest : Bytes) :
    decEntries es.length ((es.map encEntry).flatten ++ rest) = some (es, rest) := by
  induction es with
  | nil => rfl
  | cons e es ih =>
    simp only [List.map_cons, List.flatten_cons, List.length_cons, List.append_assoc]
    simp [decEntries, decEntry_encEntry, ih]

/-- The container model is lossless: any conforming reader recovers the
entry list that was written. -/
theorem decodeZip_encodeZip (es : List Entry) : decodeZip (encodeZip es) = some es := by
  have h := decEntries_append es []
  simp only [List.append_nil] at h
  simp [decodeZip, encodeZip, decNat_encNat, h]

/-! Filesystem lemmas. -/

theorem find?_filter_ne (l : List (Path × Bytes)) (p q : Path) (h : q ≠ p) :
    (l.filter (fun e => !(e.1 == p))).find? (fun e => e.1 == q) =
      l.find? (fun e => e.1 == q) := by
  induction l with
  | nil => rfl
  | cons e t ih =>
    by_cases hp : e.1 = p
    · have hq : (e.1 == q) = false := by
        simp only [beq_eq_false_iff_ne, hp]
        exact fun hc => h hc.symm
      have hpq : (p == q) = false := by
        simp only [beq_eq_false_iff_ne]
        exact fun hc => h hc.symm
      simp [List.filter_cons, hp, List.find?_cons, hq, hpq, h, ih]
    · by_cases hq : e.1 = q
      · simp [List.filter_cons, hp, List.find?_cons, hq, h]
      · simp [List.filter_cons, hp, List.find?_cons, hq, h, ih]

theorem find?_filter_self (l : List (Path × Bytes)) (p : Path) :
    (l.filter (fun e => !(e.1 == p))).find? (fun e => e.1 == p) = none := by
  rw [List.find?_eq_none]
  intro x hx
  have hmem := List.of_mem_filter hx
  simp only [Bool.not_eq_true', beq_eq_false_iff_ne] at hmem
  simp [hmem]

theorem read_setFile_self (fs : FS) (p : Path) (b : Bytes) :
    (fs.setFile p b).read p = some b := by
  simp [FS.read, FS.setFile, List.find?_cons]

theorem read_setFile_ne (fs : FS) (p q : Path) (b : Bytes) (h : q ≠ p) :
    (fs.setFile p b).read q = fs.read q := by
  have hp : (p == q) = false := by
    simp only [beq_eq_false_iff_ne]
    exact fun hc => h hc.symm
  simp [FS.read, FS.setFile, List.find?_cons, hp, find?_filter_ne fs.files p q h]

theorem read_removeFile_self (fs : FS) (p : Path) :
    (fs.removeFile p).read p = none := by
  simp [FS.read, FS.removeFile, find?_filter_self]

theorem filter_descends_filter_ne (l : List (Path × Bytes)) (folder zipp : Path)
    (h : descends folder zipp = false) :
    (l.filter (fun e => !(e.1 == zipp))).filter (fun e => descends folder e.1) =
      l.filter (fun e => descends folder e.1) := by
  induction l with
  | nil => rfl
  | cons e t ih =>
    by_cases hz : e.1 = zipp
    · have hd : descends folder e.1 = false := by rw [hz]; exact h
      simp [List.filter_cons, hz, hd, h, ih]
    · by_cases hd : descends folder e.1 = true
      · simp [List.filter_cons, hz, hd, ih]
      · simp only [Bool.not_eq_true] at hd
        simp [List.filter_cons, hz, hd, ih]

theorem walkFiles_setFile (fs : FS) (folder zipp : Path) (b : Bytes)
    (h : descends folder zipp = false) :
    walkFiles (fs.setFile zipp b) folder = walkFiles fs folder := by
  simp only [walkFiles, FS.setFile, List.filter_cons, h]
  simp [filter_descends_filter_ne fs.files folder zipp h]

/-! Lemmas about the descendant relation. -/

theorem descends_length {folder p : Path} (h : descends folder p = true) :
    folder.length < p.length := by
  induction folder generalizing p with
  | nil =>
    cases p with
    | nil => simp [descends] at h
    | cons b bs => simp
  | cons a as ih =>
    cases p with
    | nil => simp [descends] at h
    | cons b bs =>
      simp only [descends, Bool.and_eq_true, beq_iff_eq] at h
      exact Nat.succ_lt_succ (ih h.2)

theorem descends_append {folder p : Path} (h : descends folder p = true) :
    folder ++ p.drop folder.length = p := by
  induction folder generalizing p with
  | nil => simp
  | cons a as ih =>
    cases p with
    | nil => simp [descends] at h
    | cons b bs =>
      simp only [descends, Bool.and_eq_true, beq_iff_eq] at h
      obtain ⟨h1, h2⟩ := h
      simp [h1, ih h2]

/-! Lemmas about zip_folder. -/

/-- The bytes zip_folder leaves at the archive path, when the archive path
is not itself inside the walked tree (as with the script's configuration:
sounds.zip in the working directory, the tree at dist/sounds). -/
theorem zip_folder_read (fs : FS) (folder zipp : Path)
    (h : descends folder zipp = false) :
    (zip_folder fs folder zipp).read zipp = some (encodeZip (zipEntries fs folder)) := by
  have hw : zipEntries (fs.setFile zipp []) folder = zipEntries fs folder := by
    unfold zipEntries
    rw [walkFiles_setFile fs folder zipp [] h]
  unfold zip_folder
  rw [read_setFile_self, hw]

/-- zip_folder always leaves a file at the archive path: ZipFile(zip_path,
'w') creates it before the walk starts, whatever the walk finds. -/
theorem zip_folder_read_isSome (fs : FS) (folder zipp : Path) :
    ((zip_folder fs folder zipp).read zipp).isSome = true := by
  unfold zip_folder
  rw [read_setFile_self]
  rfl

theorem zip_folder_read_ne (fs : FS) (folder zipp q : Path) (h : q ≠ zipp) :
    (zip_folder fs folder zipp).read q = fs.read q := by
  unfold zip_folder
  rw [read_setFile_ne _ _ _ _ h, read_setFile_ne _ _ _ _ h]

theorem zip_folder_dirs (fs : FS) (folder zipp : Path) :
    (zip_folder fs folder zipp).dirs = fs.dirs := rfl

/-! Orchestrator lemmas. -/

/-- The run, written out: the final filesystem keeps the archive exactly
when the upload errored, and server, trace and exit come from the upload
step on the just-written archive. -/
theorem mainRun_eq (fs : FS) (srv : Server) :
    mainRun fs srv =
      ⟨match (upload_to_ftp (zip_folder fs LOCAL_DIR ZIP_PATH) srv ZIP_PATH).2.2 with
        | Except.error _ => zip_folder fs LOCAL_DIR ZIP_PATH
        | Except.ok _ => (zip_folder fs LOCAL_DIR ZIP_PATH).removeFile ZIP_PATH,
       (upload_to_ftp (zip_folder fs LOCAL_DIR ZIP_PATH) srv ZIP_PATH).1,
       (upload_to_ftp (zip_folder fs LOCAL_DIR ZIP_PATH) srv ZIP_PATH).2.1,
       (upload_to_ftp (zip_folder fs LOCAL_DIR ZIP_PATH) srv ZIP_PATH).2.2⟩ := by
  unfold mainRun
  rcases hu : upload_to_ftp (zip_folder fs LOCAL_DIR ZIP_PATH) srv ZIP_PATH with ⟨srv2, tr, res⟩
  cases res <;> simp [hu]

/-- Every call of upload_to_ftp at least attempts the connection: the
constructor FTP(FTP_HOST) always tries to reach the host. -/
theorem upload_trace_connectAttempted (fs : FS) (srv : Server) (zipp : Path) :
    (upload_to_ftp fs srv zipp).2.1.contains Ev.connectAttempted = true := by
  unfold upload_to_ftp
  split
  · rfl
  · split
    · rfl
    · split
      · rfl
      · split
        · rfl
        · split
          · rfl
          · rfl

/-! Concrete fixtures used by the witnesses and the counterexample. -/

/-- A small source tree under dist/sounds with a nested subdirectory,
plus one unrelated file in the working directory. -/
def fsDemo : FS :=
  ⟨[["dist"], ["dist", "sounds"], ["dist", "sounds", "sub"]],
   [(["dist", "sounds", "a.txt"], [104, 105]),
    (["dist", "sounds", "sub", "b.txt"], [119, 119, 119]),
    (["notes.txt"], [110])]⟩

/-- A filesystem in which the source directory dist/sounds does not exist. -/
def fsNoSounds : FS := ⟨[], [(["notes.txt"], [110])]⟩

/-- A filesystem in which dist/sounds exists but holds no files. -/
def fsEmptySounds : FS := ⟨[["dist"], ["dist", "sounds"]], [(["notes.txt"], [110])]⟩

/-- A reachable server accepting the script's credentials, with the
remote target directory present and the store completing. -/
def srvGood : Server := ⟨true, true, [REMOTE_DIR], true, []⟩

/-- A reachable server accepting the credentials but without the remote
target directory. -/
def srvNoDir : Server := ⟨true, true, [], true, []⟩

/-- A reachable server accepting the credentials, with the target
directory present, on which the binary store fails mid-transfer. -/
def srvStorFails : Server := ⟨true, true, [REMOTE_DIR], false, []⟩

/-- A filesystem on which the archive file already exists, so an upload
reaches the store step. -/
def fsWithArchive : FS :=
  ⟨[["dist"], ["dist", "sounds"]],
   [(["sounds.zip"], [0]), (["dist", "sounds", "a.txt"], [104, 105])]⟩

/-! The claims. -/

/-- C1: zip_folder writes at the output path an archive whose entry names
are exactly the relative paths of the regular files the walk finds under
the source folder (nested directories included), and each entry
decompresses to exactly the source file's bytes.  The hypothesis keeps
the output path outside the walked tree, as the spec's data model and the
script's configuration (sounds.zip in the working directory, the tree at
dist/sounds) have it. -/
theorem zip_folder_roundtrip (fs : FS) (folder zipp : Path)
    (h : descends folder zipp = false) :
    (zip_folder fs folder zipp).read zipp = some (encodeZip (zipEntries fs folder)) ∧
    decodeZip (encodeZip (zipEntries fs folder)) = some (zipEntries fs folder) ∧
    (zipEntries fs folder).map Prod.fst
      = (walkFiles fs folder).map (fun q => arcname folder q.1) ∧
    (∀ p bs, (p, bs) ∈ walkFiles fs folder →
      (arcname folder p, deflate bs) ∈ zipEntries fs folder ∧
        inflate (deflate bs) = some bs) ∧
    (∀ nm cb, (nm, cb) ∈ zipEntries fs folder →
      ∃ p bs, (p, bs) ∈ walkFiles fs folder ∧ nm = arcname folder p ∧
        inflate cb = some bs) := by
  refine ⟨zip_folder_read fs folder zipp h, decodeZip_encodeZip _, ?_, ?_, ?_⟩
  · simp [zipEntries, List.map_map]
  · intro p bs hmem
    exact ⟨List.mem_map.mpr ⟨(p, bs), hmem, rfl⟩, inflate_deflate bs⟩
  · intro nm cb hmem
    obtain ⟨⟨p, bs⟩, hq, heq⟩ := List.mem_map.mp hmem
    simp only [Prod.mk.injEq] at heq
    obtain ⟨h1, h2⟩ := heq
    refine ⟨p, bs, hq, h1.symm, ?_⟩
    rw [← h2]
    exact inflate_deflate bs

/-- Witness for C1: the demo tree archives with full round-trip. -/
theorem zip_folder_roundtrip_witness :
    descends LOCAL_DIR ZIP_PATH = false ∧
    (zip_folder fsDemo LOCAL_DIR ZIP_PATH).read ZIP_PATH
      = some (encodeZip (zipEntries fsDemo LOCAL_DIR)) :=
  ⟨by decide, (zip_folder_roundtrip fsDemo LOCAL_DIR ZIP_PATH (by decide)).1⟩

/-- C2 counterexample: with the source directory absent, the zip step
raises nothing and writes the archive anyway, and the run goes on to
attempt the network connection (here it even completes successfully), so
the claimed IOError-and-stop behaviour does not happen. -/
theorem zip_missing_source_counterexample :
    LOCAL_DIR ∉ fsNoSounds.dirs ∧
    ((zip_folder fsNoSounds LOCAL_DIR ZIP_PATH).read ZIP_PATH).isSome = true ∧
    (mainRun fsNoSounds srvGood).trace.contains Ev.connectAttempted = true ∧
    (mainRun fsNoSounds srvGood).exit = Except.ok () :=
  ⟨by decide, by decide, by decide, rfl⟩

/-- C2 amended: if the source directory does not exist, zip_folder raises
no error and writes a valid zero-entry archive at the output path, and
the run then proceeds to attempt the network connection. -/
theorem zip_missing_source_amended (fs : FS) (srv : Server)
    (_hdir : LOCAL_DIR ∉ fs.dirs)
    (hnone : ∀ q ∈ fs.files, descends LOCAL_DIR q.1 = false) :
    (zip_folder fs LOCAL_DIR ZIP_PATH).read ZIP_PATH = some (encodeZip []) ∧
    decodeZip (encodeZip []) = some [] ∧
    (mainRun fs srv).trace.contains Ev.connectAttempted = true := by
  have hempty : walkFiles fs LOCAL_DIR = [] := by
    rw [walkFiles, List.filter_eq_nil_iff]
    intro q hq
    simp [hnone q hq]
  have hz : zipEntries fs LOCAL_DIR = [] := by simp [zipEntries, hempty]
  refine ⟨?_, rfl, ?_⟩
  · rw [zip_folder_read fs LOCAL_DIR ZIP_PATH (by decide), hz]
  · rw [mainRun_eq]
    exact upload_trace_connectAttempted _ _ _

/-- Witness for the amended C2. -/
theorem zip_missing_source_amended_witness :
    LOCAL_DIR ∉ fsNoSounds.dirs ∧
    (zip_folder fsNoSounds LOCAL_DIR ZIP_PATH).read ZIP_PATH = some (encodeZip []) :=
  ⟨by decide, (zip_missing_source_amended fsNoSounds srvGood (by decide) (by decide)).1⟩

/-- C3: os.remove(ZIP_FILE) is the last statement and there is no
try/except, so the archive is deleted exactly when the upload returned
normally; on upload failure the run ends with the archive still on disk,
with the bytes zip_folder wrote. -/
theorem cleanup_only_after_upload (fs : FS) (srv : Server) :
    ((mainRun fs srv).exit = Except.ok () → (mainRun fs srv).fs.read ZIP_PATH = none) ∧
    (∀ e, (mainRun fs srv).exit = Except.error e →
      (mainRun fs srv).fs.read ZIP_PATH = (zip_folder fs LOCAL_DIR ZIP_PATH).read ZIP_PATH ∧
      ((mainRun fs srv).fs.read ZIP_PATH).isSome = true) := by
  rw [mainRun_eq]
  rcases hres : (upload_to_ftp (zip_folder fs LOCAL_DIR ZIP_PATH) srv ZIP_PATH).2.2 with e2 | a
  · refine ⟨fun hc => by simp at hc, fun e _ => ?_⟩
    exact ⟨rfl, zip_folder_read_isSome fs LOCAL_DIR ZIP_PATH⟩
  · refine ⟨fun _ => ?_, fun e he => by simp at he⟩
    exact read_removeFile_self _ _

/-- Witness for C3: a successful run leaves no local archive. -/
theorem cleanup_only_after_upload_witness :
    (mainRun fsDemo srvGood).fs.read ZIP_PATH = none :=
  (cleanup_only_after_upload fsDemo srvGood).1 rfl

/-- C4: the with-block around FTP(FTP_HOST) releases the connection on
every exit path: the trace closes every opened connection, and whenever a
connection was opened the final event is the close, whichever step failed
afterwards. -/
theorem upload_closes_connection (fs : FS) (srv : Server) (zipp : Path) :
    ((upload_to_ftp fs srv zipp).2.1.count Ev.connected
      = (upload_to_ftp fs srv zipp).2.1.count Ev.closed) ∧
    ((upload_to_ftp fs srv zipp).2.1.contains Ev.connected = true →
      (upload_to_ftp fs srv zipp).2.1.getLast? = some Ev.closed) := by
  unfold upload_to_ftp
  split
  · refine ⟨rfl, fun hc => ?_⟩
    simp at hc
  · split
    · exact ⟨rfl, fun _ => rfl⟩
    · split
      · exact ⟨rfl, fun _ => rfl⟩
      · split
        · exact ⟨rfl, fun _ => rfl⟩
        · split
          · exact ⟨rfl, fun _ => rfl⟩
          · exact ⟨rfl, fun _ => rfl⟩

/-- Witness for C4 on the store-failure exit path: the store step itself
fails (srvStorFails, archive present, so connect, login, cwd and the
local open all succeeded) and the trace still ends with the close. -/
theorem upload_closes_connection_witness :
    (upload_to_ftp fsWithArchive srvStorFails ZIP_PATH).2.2
      = Except.error Err.connectionError ∧
    (upload_to_ftp fsWithArchive srvStorFails ZIP_PATH).2.1.getLast? = some Ev.closed :=
  ⟨rfl, (upload_closes_connection fsWithArchive srvStorFails ZIP_PATH).2 (by decide)⟩

/-- C5: the steps run strictly in sequence, so when the remote target
directory is missing, ftp.cwd raises (modelled RemoteFSError) after
connect and login but before the local file is opened or any byte is
stored: no store event, server state unchanged. -/
theorem upload_missing_remote_dir (fs : FS) (srv : Server) (zipp : Path)
    (h1 : srv.reachable = true) (h2 : srv.credOk = true)
    (h3 : REMOTE_DIR ∉ srv.dirs) :
    upload_to_ftp fs srv zipp
      = (srv, [Ev.connectAttempted, Ev.connected, Ev.loggedIn, Ev.closed],
         Except.error Err.remoteFSError) ∧
    (upload_to_ftp fs srv zipp).2.1.contains Ev.stored = false ∧
    (upload_to_ftp fs srv zipp).1 = srv := by
  refine ⟨?_, ?_, ?_⟩ <;> simp [upload_to_ftp, h1, h2, h3]

/-- Witness for C5 on a server lacking the target directory. -/
theorem upload_missing_remote_dir_witness :
    REMOTE_DIR ∉ srvNoDir.dirs ∧
    (upload_to_ftp fsDemo srvNoDir ZIP_PATH).2.1.contains Ev.stored = false :=
  ⟨by decide, (upload_missing_remote_dir fsDemo srvNoDir ZIP_PATH rfl rfl (by decide)).2.1⟩

/-- C6: every entry name in the archive is the forward-slash join of the
nonempty list of components of a source file's path below the root; when
the filesystem is well formed (no component empty, dot, dot-dot, or
containing a slash) the names are therefore relative, slash-separated,
with no absolute part and no parent-directory segment. -/
theorem zip_arcnames_relative (fs : FS) (folder zipp : Path)
    (hwf : ∀ q ∈ fs.files, ∀ c ∈ q.1,
      c ≠ "" ∧ c ≠ "." ∧ c ≠ ".." ∧ c.toList.contains '/' = false)
    (h : descends folder zipp = false) :
    (zip_folder fs folder zipp).read zipp = some (encodeZip (zipEntries fs folder)) ∧
    ∀ nm ∈ (zipEntries fs folder).map Prod.fst,
      ∃ comps : List String, comps ≠ [] ∧
        (∀ c ∈ comps, c ≠ "" ∧ c ≠ "." ∧ c ≠ ".." ∧ c.toList.contains '/' = false) ∧
        nm = String.intercalate "/" comps ∧
        ∃ q ∈ fs.files, q.1 = folder ++ comps := by
  refine ⟨zip_folder_read fs folder zipp h, ?_⟩
  intro nm hnm
  simp only [zipEntries, List.map_map] at hnm
  obtain ⟨⟨p, bs⟩, hq, hname⟩ := List.mem_map.mp hnm
  have hmem : (p, bs) ∈ fs.files := List.mem_filter.mp hq |>.1
  have hdesc : descends folder p = true := by
    have := List.mem_filter.mp hq |>.2
    simpa using this
  refine ⟨relpath folder p, ?_, ?_, ?_, ⟨(p, bs), hmem, ?_⟩⟩
  · have hlen := descends_length hdesc
    rw [relpath, Ne, List.drop_eq_nil_iff]
    omega
  · intro c hc
    exact hwf (p, bs) hmem c (List.mem_of_mem_drop hc)
  · exact hname.symm
  · exact (descends_append hdesc).symm

/-- Witness for C6 on the demo tree with a nested subdirectory. -/
theorem zip_arcnames_relative_witness :
    descends LOCAL_DIR ZIP_PATH = false ∧
    (zip_folder fsDemo LOCAL_DIR ZIP_PATH).read ZIP_PATH
      = some (encodeZip (zipEntries fsDemo LOCAL_DIR)) :=
  ⟨by decide, (zip_arcnames_relative fsDemo LOCAL_DIR ZIP_PATH (by decide) (by decide)).1⟩

/-- C7: an existing directory with no files below it produces a valid
archive with zero entries, and nothing fails: zip_folder is total here,
the walk just yields no files. -/
theorem zip_empty_dir (fs : FS) (folder zipp : Path)
    (_hdir : folder ∈ fs.dirs) (hempty : walkFiles fs folder = [])
    (h : descends folder zipp = false) :
    (zip_folder fs folder zipp).read zipp = some (encodeZip []) ∧
    decodeZip (encodeZip []) = some [] := by
  have hz : zipEntries fs folder = [] := by simp [zipEntries, hempty]
  refine ⟨?_, rfl⟩
  rw [zip_folder_read fs folder zipp h, hz]

/-- Witness for C7: an existing empty dist/sounds zips to a zero-entry
archive. -/
theorem zip_empty_dir_witness :
    LOCAL_DIR ∈ fsEmptySounds.dirs ∧
    (zip_folder fsEmptySounds LOCAL_DIR ZIP_PATH).read ZIP_PATH = some (encodeZip []) :=
  ⟨by decide,
   (zip_empty_dir fsEmptySounds LOCAL_DIR ZIP_PATH (by decide) (by decide) (by decide)).1⟩

/-- C8: zip_folder creates or overwrites only the file at the output
path: the directory set and every other file are unchanged, and with the
output path outside the source tree (as in the script's configuration)
every file below the source root keeps its presence and contents. -/
theorem zip_folder_frame (fs : FS) (folder zipp : Path) :
    (zip_folder fs folder zipp).dirs = fs.dirs ∧
    (∀ p, p ≠ zipp → (zip_folder fs folder zipp).read p = fs.read p) ∧
    (descends folder zipp = false →
      ∀ p, descends folder p = true →
        (zip_folder fs folder zipp).read p = fs.read p) := by
  refine ⟨rfl, fun p hp => zip_folder_read_ne fs folder zipp p hp, fun h p hp => ?_⟩
  have hne : p ≠ zipp := by
    intro he
    rw [he] at hp
    rw [hp] at h
    simp at h
  exact zip_folder_read_ne fs folder zipp p hne

/-- Witness for C8: the source files and the unrelated file are untouched
in the demo tree. -/
theorem zip_folder_frame_witness :
    (zip_folder fsDemo LOCAL_DIR ZIP_PATH).read ["dist", "sounds", "a.txt"]
      = fsDemo.read ["dist", "sounds", "a.txt"] :=
  (zip_folder_frame fsDemo LOCAL_DIR ZIP_PATH).2.2 (by decide)
    ["dist", "sounds", "a.txt"] (by decide)

/-- C9: ZipFile(zip_path, 'w') runs before the walk, so the output file
is created or truncated for every input; and a nonexistent source folder
raises no error, the walk silently yields nothing, and the archive is a
valid empty one. -/
theorem zip_creates_archive_always (fs : FS) (folder zipp : Path)
    (_hdir : folder ∉ fs.dirs)
    (hnone : ∀ q ∈ fs.files, descends folder q.1 = false)
    (h : descends folder zipp = false) :
    (∀ gs : FS, ((zip_folder gs folder zipp).read zipp).isSome = true) ∧
    (zip_folder fs folder zipp).read zipp = some (encodeZip []) ∧
    decodeZip (encodeZip []) = some [] := by
  have hempty : walkFiles fs folder = [] := by
    rw [walkFiles, List.filter_eq_nil_iff]
    intro q hq
    simp [hnone q hq]
  have hz : zipEntries fs folder = [] := by simp [zipEntries, hempty]
  refine ⟨fun gs => zip_folder_read_isSome gs folder zipp, ?_, rfl⟩
  rw [zip_folder_read fs folder zipp h, hz]

/-- Witness for C9 on the filesystem without dist/sounds. -/
theorem zip_creates_archive_always_witness :
    LOCAL_DIR ∉ fsNoSounds.dirs ∧
    (zip_folder fsNoSounds LOCAL_DIR ZIP_PATH).read ZIP_PATH = some (encodeZip []) :=
  ⟨by decide,
   (zip_creates_archive_always fsNoSounds LOCAL_DIR ZIP_PATH (by decide) (by decide)
      (by decide)).2.1⟩

/-- C10: upload_to_ftp opens the local archive only after connect, login
and cwd; with the local archive unreadable the server is still contacted,
logged into and its directory changed, and only then does the call fail
with the local IOError. -/
theorem upload_missing_local_archive (fs : FS) (srv : Server) (zipp : Path)
    (h1 : srv.reachable = true) (h2 : srv.credOk = true)
    (h3 : REMOTE_DIR ∈ srv.dirs) (h4 : fs.read zipp = none) :
    upload_to_ftp fs srv zipp
      = (srv, [Ev.connectAttempted, Ev.connected, Ev.loggedIn, Ev.cwdChanged, Ev.closed],
         Except.error Err.ioError) ∧
    (upload_to_ftp fs srv zipp).2.1.contains Ev.connected = true ∧
    (upload_to_ftp fs srv zipp).2.1.contains Ev.loggedIn = true ∧
    (upload_to_ftp fs srv zipp).2.1.contains Ev.cwdChanged = true := by
  refine ⟨?_, ?_, ?_, ?_⟩ <;> simp [upload_to_ftp, h1, h2, h3, h4]

/-- Witness for C10: no archive on disk, yet the trace shows connect,
login and cwd before the failure. -/
theorem upload_missing_local_archive_witness :
    fsDemo.read ZIP_PATH = none ∧
    (upload_to_ftp fsDemo srvGood ZIP_PATH).2.1.contains Ev.cwdChanged = true :=
  ⟨by decide,
   (upload_missing_local_archive fsDemo srvGood ZIP_PATH rfl rfl (by decide)
      (by decide)).2.2.2⟩

end UploadSounds
